import Mathlib

/-!
Verification of the risk_bank ingestion / normalization / scoring pipeline.

Shallow embedding of the Python sources:
  * src/pipelines/ingest_ifdata.py    (text cleaning, to_float, odata_get,
                                       pagination, upsert, checkpoint store,
                                       ingest_relatorio orchestration)
  * src/pipelines/normalize_ifdata.py (pick_best classifier, per-bank
                                       normalization and derived ratios)
  * src/pipelines/risk_score.py       (clamp, score_bank)

Python floats are modelled as exact rationals plus explicit non-finite values
(PyFloat); Python strings are Lean strings, with every operation implemented
on the underlying character list so that concrete runs reduce in the kernel.
-/

namespace RiskBank

/-! ### Python-style whitespace and basic character helpers -/

/-- Whitespace as recognized by Python's `str.strip` / regex `\s`
(the ASCII subset: space, tab, newline, carriage return, vertical tab, form feed). -/
def pyIsSpace (c : Char) : Bool :=
  c = ' ' || c = '\t' || c = '\n' || c = '\r' || c = '\x0b' || c = '\x0c'

/-- Characters matched by the `_RE_CTRL` regex `[\x00-\x1F\x7F]+` in
ingest_ifdata.py. -/
def isCtrlChar (c : Char) : Bool :=
  c.toNat ≤ 0x1F || c.toNat = 0x7F

/-- Python `str.strip()` on a character list. -/
def trimChars (l : List Char) : List Char :=
  ((l.dropWhile pyIsSpace).reverse.dropWhile pyIsSpace).reverse

/-- Python `s.strip()`. -/
def pyStrip (s : String) : String := String.mk (trimChars s.data)

/-- Split a character list into its maximal non-whitespace words
(used to realize the regex rewrite `\s+` -> single space followed by strip). -/
def wordsGo : List Char → List Char → List (List Char)
  | [], cur => if cur.isEmpty then [] else [cur.reverse]
  | c :: rest, cur =>
    if pyIsSpace c then
      if cur.isEmpty then wordsGo rest [] else cur.reverse :: wordsGo rest []
    else
      wordsGo rest (c :: cur)

def pyWords (l : List Char) : List (List Char) := wordsGo l []

/-- Collapse every whitespace run to a single space and strip the ends:
exactly the effect of `_RE_SPACES.sub(" ", s).strip()`. -/
def collapseSpaces (l : List Char) : List Char :=
  List.intercalate [' '] (pyWords l)

/-- clean_text from ingest_ifdata.py: control characters are replaced by
spaces (`_RE_CTRL.sub(" ", ...)` together with the explicit `\r`/`\n`
replacements, which target control characters already covered), then
whitespace runs are collapsed and the ends stripped.  Replacing each control
character by one space instead of each maximal run by one space is
extensionally identical here because of the following collapse. -/
def clean_text (s : String) : String :=
  String.mk (collapseSpaces (s.data.map fun c => if isCtrlChar c then ' ' else c))

/-- Expansion of each `=` to ` = `; combined with a following whitespace
collapse this realizes `re.sub(r"\s*=\s*", " = ", s)` on the already
space-collapsed output of clean_text. -/
def expandEq (l : List Char) : List Char :=
  (l.map fun c => if c = '=' then [' ', '=', ' '] else [c]).flatten

/-- clean_indicator_name from ingest_ifdata.py. -/
def clean_indicator_name (s : String) : String :=
  String.mk (collapseSpaces (expandEq (clean_text s).data))

/-- safe_trunc from ingest_ifdata.py (callers always pass an actual string,
so the `None -> ""` coercion is handled at call sites). -/
def safe_trunc (s : String) (max_len : Int) : String :=
  if max_len ≤ 0 then s
  else if (s.data.length : Int) ≤ max_len then s
  else String.mk (s.data.take (max_len - 1).toNat ++ ['…'])

/-! ### Python float values -/

/-- Value of a Python float: an exact rational for the finite case, plus the
three non-finite values.  (Binary rounding of IEEE doubles is not modelled;
the spec and claims state the arithmetic at the real-number level.) -/
inductive PyFloat
  | finite (q : ℚ)
  | inf
  | negInf
  | nan
deriving DecidableEq

/-- Finiteness test for a modelled float. -/
def PyFloat.isFinite : PyFloat → Bool
  | .finite _ => true
  | _ => false

/-! ### Parsing of Python `float(s)` string literals -/

def isDigitChar (c : Char) : Bool := '0' ≤ c && c ≤ '9'

def digitVal (c : Char) : Nat := c.toNat - 48

def natOfDigits (l : List Char) : Nat :=
  l.foldl (fun a c => a * 10 + digitVal c) 0

/-- Leading sign of a numeric literal: (isNegative, rest). -/
def splitSign : List Char → Bool × List Char
  | '+' :: r => (false, r)
  | '-' :: r => (true, r)
  | l => (false, l)

/-- Mantissa of a float literal: digits with at most one dot and at least one
digit; returns (value of all digits, number of fractional digits). -/
def parseMantissa (l : List Char) : Option (Nat × Nat) :=
  if l.all isDigitChar then
    if l.isEmpty then Option.none else some (natOfDigits l, 0)
  else
    let intD := l.takeWhile (fun c => c != '.')
    match l.drop intD.length with
    | '.' :: fracD =>
      if intD.all isDigitChar && fracD.all isDigitChar
          && (!intD.isEmpty || !fracD.isEmpty) then
        some (natOfDigits (intD ++ fracD), fracD.length)
      else Option.none
    | _ => Option.none

/-- Exponent part of a float literal (after the `e`/`E`). -/
def parseExp (l : List Char) : Option Int :=
  let (neg, r) := splitSign l
  if r.isEmpty || !r.all isDigitChar then Option.none
  else some (if neg then -(natOfDigits r : Int) else (natOfDigits r : Int))

/-- Python `float(s)` on a stripped character list: decimal literals with
optional sign, dot and exponent, plus the `inf` / `infinity` / `nan`
spellings (case-insensitive).  Note `float` accepts these spellings, so
`float("inf")` is an infinity and `float("nan")` is NaN.  Digit-group
underscores and overflow of huge literals to infinity are not modelled; the
claims never involve such inputs. -/
def parsePyFloatChars (l : List Char) : Option PyFloat :=
  let (neg, r) := splitSign l
  let low := r.map Char.toLower
  if low = "inf".data || low = "infinity".data then
    some (if neg then .negInf else .inf)
  else if low = "nan".data then some .nan
  else
    let mant := r.takeWhile (fun c => c != 'e' && c != 'E')
    match parseMantissa mant with
    | Option.none => Option.none
    | some (dv, fl) =>
      let base : ℚ := (dv : ℚ) / 10 ^ fl
      match r.drop mant.length with
      | [] => some (.finite (if neg then -base else base))
      | _ :: expPart =>
        match parseExp expPart with
        | Option.none => Option.none
        | some e => some (.finite (if neg then -(base * 10 ^ e) else base * 10 ^ e))

/-- Python `float(s)` for a string (which strips surrounding whitespace). -/
def pyFloatOfString (s : String) : Option PyFloat :=
  parsePyFloatChars (trimChars s.data)

/-! ### Python values reaching to_float -/

/-- Dynamic values that can reach `to_float` from a parsed JSON payload:
`None`, booleans, ints, floats, strings, and anything else. -/
inductive PyVal
  | none
  | bool (b : Bool)
  | int (n : Int)
  | float (f : PyFloat)
  | str (s : String)
  | other
deriving DecidableEq

/-- to_float from ingest_ifdata.py.  The NaN check `v != v` only runs on the
int/float branch, and infinity compares equal to itself, so a float infinity
passes through; the string branch applies the pt-BR separator rewrites and
then plain `float(s)` with no finiteness check at all.  (Overflow of a huge
int to OverflowError is not modelled.) -/
def to_float : PyVal → Option PyFloat
  | .none => Option.none
  | .bool _ => Option.none
  | .int n => some (.finite (n : ℚ))
  | .float f => if f = .nan then Option.none else some f
  | .str x =>
    let s := pyStrip x
    if s = "" then Option.none
    else
      let s2 :=
        if s.data.contains ',' && s.data.contains '.' then
          -- pt-BR: 1.234.567,89 -- drop the dots, then comma becomes dot
          String.mk ((s.data.filter (fun c => c != '.')).map
            (fun c => if c = ',' then '.' else c))
        else if s.data.contains ',' then
          String.mk (s.data.map (fun c => if c = ',' then '.' else c))
        else s
      pyFloatOfString s2
  | .other => Option.none

/-! ### Claims C3 and C10: numeric parsing -/

/-- C3, counterexample.  The claim states that the result of to_float is
never NaN or infinite ("non-finite results are treated as absent"); the code
only filters NaN on the int/float branch, so a native float infinity passes
through unchanged and the string "nan" parses to NaN. -/
theorem C3_to_float_nonfinite_counterexample :
    to_float (PyVal.float PyFloat.inf) = some PyFloat.inf ∧
    to_float (PyVal.str "nan") = some PyFloat.nan ∧
    PyFloat.isFinite PyFloat.inf = false ∧
    PyFloat.isFinite PyFloat.nan = false := by
  refine ⟨rfl, ?_, rfl, rfl⟩
  decide

/-- C3, amended.  Numeric parsing (to_float) satisfies: native ints and
finite floats pass through; a string containing both "." and "," is read as
thousands-then-decimal ("1.234,56" -> 1234.56); a string with only "," is
read as decimal-comma ("12,5" -> 12.5); unparseable text and absent input
yield absent; a native NaN input yields absent -- but a native infinity
passes through, and strings spelling infinity or NaN parse to non-finite
values, so the result is NaN-free only for native numeric inputs. -/
theorem C3_to_float_amended :
    (∀ n : Int, to_float (.int n) = some (.finite (n : ℚ))) ∧
    (∀ q : ℚ, to_float (.float (.finite q)) = some (.finite q)) ∧
    to_float (.float .nan) = Option.none ∧
    to_float (.float .inf) = some .inf ∧
    to_float (.float .negInf) = some .negInf ∧
    to_float (.str "1.234,56") = some (.finite (1234.56 : ℚ)) ∧
    to_float (.str "12,5") = some (.finite (12.5 : ℚ)) ∧
    to_float (.str "not a number") = Option.none ∧
    to_float .none = Option.none := by
  refine ⟨fun n => rfl, fun q => by simp [to_float], rfl, rfl, rfl, ?_, ?_, ?_, rfl⟩
  · have h : to_float (.str "1.234,56")
        = some (.finite (((123456 : Nat) : ℚ) / 10 ^ (2 : Nat))) := by rfl
    rw [h]; norm_num
  · have h : to_float (.str "12,5")
        = some (.finite (((125 : Nat) : ℚ) / 10 ^ (1 : Nat))) := by rfl
    rw [h]; norm_num
  · decide

/-- C10.  to_float returns absent for every boolean input: the isinstance
check for bool precedes the numeric branch, so True/False are never coerced
to 1.0/0.0. -/
theorem C10_to_float_bool (b : Bool) : to_float (.bool b) = Option.none := rfl

/-! ### Risk scorer (risk_score.py)

Canonical-metric vocabulary of the spec versus the column names of the code:
capital_ratio = basileia, liquidity_ratio = liquidez, npl_ratio =
inadimplencia, leverage = alavancagem; ratings HIGH/MEDIUM/LOW are rendered
"ALTO"/"MEDIO"/"BAIXO". -/

/-- clamp from risk_score.py: `max(lo, min(hi, x))`. -/
def clamp (x lo hi : ℚ) : ℚ := max lo (min hi x)

/-- Input record of score_bank: the five metrics it reads from a
mart_bank_metrics row, each possibly absent (SQL NULL / Python None). -/
structure MetricsRow where
  basileia : Option ℚ
  liquidez : Option ℚ
  roa : Option ℚ
  inadimplencia : Option ℚ
  alavancagem : Option ℚ

/-- Penalty s_bas of score_bank (Basileia %). -/
def s_bas : Option ℚ → ℚ
  | Option.none => 8
  | some b => if b < 8 then 30 else if b < 10 then 20 else if b < 12 then 10 else 0

/-- Penalty s_liq of score_bank (liquidity index). -/
def s_liq : Option ℚ → ℚ
  | Option.none => 6
  | some l => if l < 0.9 then 25 else if l < 1.0 then 18 else if l < 1.1 then 10 else 0

/-- Penalty s_roa of score_bank (ROA %). -/
def s_roa : Option ℚ → ℚ
  | Option.none => 5
  | some r => if r < -1.0 then 20 else if r < 0.0 then 12 else if r < 0.5 then 6 else 0

/-- Penalty s_npl of score_bank (inadimplencia %). -/
def s_npl : Option ℚ → ℚ
  | Option.none => 4
  | some n => if n > 10 then 18 else if n > 6 then 12 else if n > 4 then 6 else 0

/-- Penalty s_lev of score_bank (alavancagem = Ativo/PL). -/
def s_lev : Option ℚ → ℚ
  | Option.none => 4
  | some l => if l > 20 then 12 else if l > 15 then 8 else if l > 10 then 4 else 0

/-- Explain-trace entry of score_bank: the metric's value and its penalty. -/
structure DriverEntry where
  value : Option ℚ
  score : ℚ

/-- Drivers dict of score_bank, one entry per scoring input. -/
structure Drivers where
  basileia : DriverEntry
  liquidez : DriverEntry
  roa : DriverEntry
  inadimplencia : DriverEntry
  alavancagem : DriverEntry

/-- score_bank from risk_score.py: sums the five penalties, clamps into
[0, 100] and maps the result onto the ALTO/MEDIO/BAIXO rating bands. -/
def score_bank (m : MetricsRow) : ℚ × String × Drivers :=
  let sBas := s_bas m.basileia
  let sLiq := s_liq m.liquidez
  let sRoa := s_roa m.roa
  let sNpl := s_npl m.inadimplencia
  let sLev := s_lev m.alavancagem
  let score := clamp (sBas + sLiq + sRoa + sNpl + sLev) 0 100
  let rating := if 70 ≤ score then "ALTO" else if 40 ≤ score then "MEDIO" else "BAIXO"
  (score, rating,
    ⟨⟨m.basileia, sBas⟩, ⟨m.liquidez, sLiq⟩, ⟨m.roa, sRoa⟩,
     ⟨m.inadimplencia, sNpl⟩, ⟨m.alavancagem, sLev⟩⟩)

/-- Python's `round` (banker's rounding: ties go to the even integer). -/
def pyRound (q : ℚ) : ℤ :=
  if q - ⌊q⌋ < 1 / 2 then ⌊q⌋
  else if (1 : ℚ) / 2 < q - ⌊q⌋ then ⌊q⌋ + 1
  else if ⌊q⌋ % 2 = 0 then ⌊q⌋ else ⌊q⌋ + 1

lemma s_bas_int (o : Option ℚ) : ∃ k : ℤ, s_bas o = (k : ℚ) := by
  cases o with
  | none => exact ⟨8, by norm_num [s_bas]⟩
  | some b =>
    simp only [s_bas]
    split_ifs
    · exact ⟨30, by norm_num⟩
    · exact ⟨20, by norm_num⟩
    · exact ⟨10, by norm_num⟩
    · exact ⟨0, by norm_num⟩

lemma s_liq_int (o : Option ℚ) : ∃ k : ℤ, s_liq o = (k : ℚ) := by
  cases o with
  | none => exact ⟨6, by norm_num [s_liq]⟩
  | some l =>
    simp only [s_liq]
    split_ifs
    · exact ⟨25, by norm_num⟩
    · exact ⟨18, by norm_num⟩
    · exact ⟨10, by norm_num⟩
    · exact ⟨0, by norm_num⟩

lemma s_roa_int (o : Option ℚ) : ∃ k : ℤ, s_roa o = (k : ℚ) := by
  cases o with
  | none => exact ⟨5, by norm_num [s_roa]⟩
  | some r =>
    simp only [s_roa]
    split_ifs
    · exact ⟨20, by norm_num⟩
    · exact ⟨12, by norm_num⟩
    · exact ⟨6, by norm_num⟩
    · exact ⟨0, by norm_num⟩

lemma s_npl_int (o : Option ℚ) : ∃ k : ℤ, s_npl o = (k : ℚ) := by
  cases o with
  | none => exact ⟨4, by norm_num [s_npl]⟩
  | some n =>
    simp only [s_npl]
    split_ifs
    · exact ⟨18, by norm_num⟩
    · exact ⟨12, by norm_num⟩
    · exact ⟨6, by norm_num⟩
    · exact ⟨0, by norm_num⟩

lemma s_lev_int (o : Option ℚ) : ∃ k : ℤ, s_lev o = (k : ℚ) := by
  cases o with
  | none => exact ⟨4, by norm_num [s_lev]⟩
  | some l =>
    simp only [s_lev]
    split_ifs
    · exact ⟨12, by norm_num⟩
    · exact ⟨8, by norm_num⟩
    · exact ⟨4, by norm_num⟩
    · exact ⟨0, by norm_num⟩

lemma pyRound_intCast (k : ℤ) : pyRound (k : ℚ) = k := by
  simp [pyRound, Int.floor_intCast]

lemma clamp_intCast (k : ℤ) :
    clamp (k : ℚ) 0 100 = ((max 0 (min 100 k) : ℤ) : ℚ) := by
  simp only [clamp]
  push_cast
  rfl

/-- C5.  For every canonical-metric input record the risk score equals
round(clamp(sum of the five per-input penalties, 0, 100)) -- the code omits
the rounding, but every penalty (including the absence defaults) is an
integer, so the clamped sum is already integral and rounding is the
identity.  Rating is ALTO (HIGH) when score >= 70, MEDIO (MEDIUM) when
40 <= score < 70, BAIXO (LOW) otherwise.  The concrete instance
capital_ratio=7, liquidity_ratio=0.8, roa=-2, npl_ratio=12, leverage=25
yields penalties 30+25+20+18+12 = 105, clamped score 100, rating ALTO. -/
theorem C5_score_bank_spec :
    (∀ m : MetricsRow,
      (score_bank m).1
          = ((pyRound (clamp (s_bas m.basileia + s_liq m.liquidez + s_roa m.roa
              + s_npl m.inadimplencia + s_lev m.alavancagem) 0 100) : ℤ) : ℚ) ∧
      ((score_bank m).2.1 = "ALTO" ↔ 70 ≤ (score_bank m).1) ∧
      ((score_bank m).2.1 = "MEDIO" ↔ 40 ≤ (score_bank m).1 ∧ (score_bank m).1 < 70) ∧
      ((score_bank m).2.1 = "BAIXO" ↔ (score_bank m).1 < 40)) ∧
    s_bas (some 7) = 30 ∧ s_liq (some 0.8) = 25 ∧ s_roa (some (-2)) = 20 ∧
    s_npl (some 12) = 18 ∧ s_lev (some 25) = 12 ∧
    (30 : ℚ) + 25 + 20 + 18 + 12 = 105 ∧ clamp 105 0 100 = 100 ∧
    (score_bank ⟨some 7, some 0.8, some (-2), some 12, some 25⟩).1 = 100 ∧
    (score_bank ⟨some 7, some 0.8, some (-2), some 12, some 25⟩).2.1 = "ALTO" := by
  constructor
  · intro m
    obtain ⟨k1, h1⟩ := s_bas_int m.basileia
    obtain ⟨k2, h2⟩ := s_liq_int m.liquidez
    obtain ⟨k3, h3⟩ := s_roa_int m.roa
    obtain ⟨k4, h4⟩ := s_npl_int m.inadimplencia
    obtain ⟨k5, h5⟩ := s_lev_int m.alavancagem
    have hsum : s_bas m.basileia + s_liq m.liquidez + s_roa m.roa
        + s_npl m.inadimplencia + s_lev m.alavancagem
        = ((k1 + k2 + k3 + k4 + k5 : ℤ) : ℚ) := by
      rw [h1, h2, h3, h4, h5]; push_cast; ring
    have hscore : (score_bank m).1
        = ((max 0 (min 100 (k1 + k2 + k3 + k4 + k5)) : ℤ) : ℚ) := by
      show clamp _ 0 100 = _
      rw [hsum, clamp_intCast]
    refine ⟨?_, ?_, ?_, ?_⟩
    · show clamp _ 0 100 = _
      rw [hsum, clamp_intCast, pyRound_intCast]
    · show (if 70 ≤ (score_bank m).1 then "ALTO"
          else if 40 ≤ (score_bank m).1 then "MEDIO" else "BAIXO") = "ALTO"
          ↔ 70 ≤ (score_bank m).1
      split_ifs with h70 h40
      · simp [h70]
      · simp [h70]
      · simp [h70]
    · show (if 70 ≤ (score_bank m).1 then "ALTO"
          else if 40 ≤ (score_bank m).1 then "MEDIO" else "BAIXO") = "MEDIO"
          ↔ 40 ≤ (score_bank m).1 ∧ (score_bank m).1 < 70
      split_ifs with h70 h40
      · simp only [iff_false_intro (by decide : ¬("ALTO" = "MEDIO")), false_iff]
        intro h; exact absurd h70 (not_le.mpr h.2)
      · simp [h40, lt_of_not_le h70]
      · simp only [iff_false_intro (by decide : ¬("BAIXO" = "MEDIO")), false_iff]
        intro h; exact h40 h.1
    · show (if 70 ≤ (score_bank m).1 then "ALTO"
          else if 40 ≤ (score_bank m).1 then "MEDIO" else "BAIXO") = "BAIXO"
          ↔ (score_bank m).1 < 40
      split_ifs with h70 h40
      · simp only [iff_false_intro (by decide : ¬("ALTO" = "BAIXO")), false_iff]
        intro h; exact absurd h70 (not_le.mpr (h.trans_le (by norm_num)))
      · simp only [iff_false_intro (by decide : ¬("MEDIO" = "BAIXO")), false_iff]
        intro h; exact absurd h40 (not_le.mpr h)
      · simp [lt_of_not_le h40]
  refine ⟨by norm_num [s_bas], by norm_num [s_liq], by norm_num [s_roa],
    by norm_num [s_npl], by norm_num [s_lev], by norm_num, by norm_num [clamp], ?_, ?_⟩
  · show clamp (s_bas (some 7) + s_liq (some 0.8) + s_roa (some (-2))
        + s_npl (some 12) + s_lev (some 25)) 0 100 = 100
    norm_num [s_bas, s_liq, s_roa, s_npl, s_lev, clamp]
  · show (if 70 ≤ clamp (s_bas (some 7) + s_liq (some 0.8) + s_roa (some (-2))
        + s_npl (some 12) + s_lev (some 25)) 0 100 then "ALTO"
        else if 40 ≤ clamp _ 0 100 then "MEDIO" else "BAIXO") = "ALTO"
    norm_num [s_bas, s_liq, s_roa, s_npl, s_lev, clamp]

/-! ### Semantic classifier (normalize_ifdata.py)

Regular-expression matching is abstracted: each pattern of a MetricRule is
modelled as a Boolean matcher on the cleaned label.  The claims about
pick_best quantify over arbitrary rules, so nothing below depends on the
semantics of any particular regex. -/

/-- MetricRule from normalize_ifdata.py, with each regex pattern abstracted
to a Boolean matcher. -/
structure MetricRule where
  metric : String
  patterns : List (String → Bool)
  report_preference : List String

/-- matches_any from normalize_ifdata.py. -/
def matches_any (name : String) (patterns : List (String → Bool)) : Bool :=
  patterns.any (fun p => p name)

/-- Split an indicator at the first "::" occurrence, like Python's
`ind.split("::", 1)`. -/
def splitIndicator : List Char → Option (List Char × List Char)
  | [] => Option.none
  | ':' :: ':' :: rest => some ([], rest)
  | c :: rest =>
    match splitIndicator rest with
    | some (a, b) => some (c :: a, b)
    | Option.none => Option.none

/-- report_of_indicator from normalize_ifdata.py:
`ind.split("::", 1)[0].strip() if "::" in ind else ""`. -/
def report_of_indicator (ind : String) : String :=
  match splitIndicator ind.data with
  | some (pre, _) => String.mk (trimChars pre)
  | Option.none => ""

/-- Label part of an indicator:
`ind.split("::", 1)[1] if "::" in ind else ind` in pick_best. -/
def indicator_name (ind : String) : String :=
  match splitIndicator ind.data with
  | some (_, post) => String.mk post
  | Option.none => ind

/-- Row as read back by normalize: an indicator and its (finite stored)
value, already coerced by `float(r["value"])`. -/
structure FactRow where
  indicator : String
  value : ℚ

/-- Candidate tuple `(report_of_indicator(ind), name, float(r["value"]))`
built in pick_best. -/
abbrev Cand := String × String × ℚ

/-- Candidate list of pick_best (the first loop over rows). -/
def candidatesOf (rows : List FactRow) (rule : MetricRule) : List Cand :=
  rows.filterMap fun r =>
    let ind := clean_text r.indicator
    let name := indicator_name ind
    if matches_any name rule.patterns then
      some (report_of_indicator ind, name, r.value)
    else Option.none

/-- sane from pick_best: the per-metric plausibility range (the name
argument is unused, as in the source). -/
def sane (metric _lbl : String) (v : ℚ) : Bool :=
  if metric = "basileia" then decide (0 < v) && decide (v < 100)
  else if metric = "liquidez" then decide (0 < v) && decide (v < 10)
  else if metric = "inadimplencia" then decide (0 ≤ v) && decide (v < 100)
  else true

/-- Surviving candidates: the plausibility-filtered candidate list of
pick_best. -/
def survivorsOf (rows : List FactRow) (rule : MetricRule) : List Cand :=
  (candidatesOf rows rule).filter fun c => sane rule.metric c.2.1 c.2.2

/-- First element of `sorted(vals, key=abs, reverse=True)`: by stability of
Python's sort this is the earliest element of maximal absolute value, which
the fold below computes directly. -/
def maxAbsFirst : List ℚ → Option ℚ
  | [] => Option.none
  | v :: vs => some (vs.foldl (fun best w => if |best| < |w| then w else best) v)

/-- Preference loop of pick_best: the first preferred report id with a
candidate wins; after the loop, the fallback takes the maximal-|.| value
over all surviving candidates. -/
def prefPick (cands : List Cand) : List String → Option ℚ
  | [] => maxAbsFirst (cands.map fun c => c.2.2)
  | rep :: rest =>
    let repVals := (cands.filter fun c => c.1 = rep).map fun c => c.2.2
    if repVals.isEmpty then prefPick cands rest else maxAbsFirst repVals

/-- pick_best from normalize_ifdata.py. -/
def pick_best (rows : List FactRow) (rule : MetricRule) : Option ℚ :=
  let cands := candidatesOf rows rule
  if cands.isEmpty then Option.none
  else
    let surv := cands.filter fun c => sane rule.metric c.2.1 c.2.2
    if surv.isEmpty then Option.none
    else prefPick surv rule.report_preference

/-- First report id of the preference list that has at least one surviving
candidate (the claim's selection criterion). -/
def firstSurvivingReport (prefs : List String) (cands : List Cand) : Option String :=
  prefs.find? fun rep => !((cands.filter fun c => c.1 = rep).isEmpty)

/-- Values of the surviving candidates belonging to one report id. -/
def repValsOf (cands : List Cand) (rep : String) : List ℚ :=
  (cands.filter fun c => c.1 = rep).map fun c => c.2.2

lemma maxAbsFirst_spec (v : ℚ) (vs : List ℚ) :
    ∃ r, maxAbsFirst (v :: vs) = some r ∧ r ∈ v :: vs ∧ ∀ w ∈ v :: vs, |w| ≤ |r| := by
  suffices h : ∀ (l : List ℚ) (b : ℚ),
      (l.foldl (fun best w => if |best| < |w| then w else best) b) ∈ b :: l ∧
      ∀ w ∈ b :: l, |w| ≤ |l.foldl (fun best w => if |best| < |w| then w else best) b| by
    obtain ⟨hmem, hmax⟩ := h vs v
    exact ⟨_, rfl, hmem, hmax⟩
  intro l
  induction l with
  | nil => intro b; simp
  | cons w l ih =>
    intro b
    simp only [List.foldl_cons]
    obtain ⟨hmem, hmax⟩ := ih (if |b| < |w| then w else b)
    constructor
    · rcases List.mem_cons.mp hmem with h | h
      · rw [h]
        split_ifs with hlt
        · exact List.mem_cons_of_mem _ (List.mem_cons_self _ _)
        · exact List.mem_cons_self _ _
      · exact List.mem_cons_of_mem _ (List.mem_cons_of_mem _ h)
    · intro x hx
      rcases List.mem_cons.mp hx with h | h
      · subst h
        refine le_trans ?_ (hmax _ (List.mem_cons_self _ _))
        split_ifs with hlt
        · exact le_of_lt hlt
        · exact le_refl _
      · rcases List.mem_cons.mp h with h | h
        · subst h
          refine le_trans ?_ (hmax _ (List.mem_cons_self _ _))
          split_ifs with hlt
          · exact le_refl _
          · exact le_of_not_lt hlt
        · exact hmax _ (List.mem_cons_of_mem _ h)

lemma prefPick_isSome (cands : List Cand) (hne : cands ≠ []) (prefs : List String) :
    ∃ v, prefPick cands prefs = some v := by
  induction prefs with
  | nil =>
    simp only [prefPick]
    cases cands with
    | nil => exact absurd rfl hne
    | cons c cs =>
      obtain ⟨r, hr, -, -⟩ := maxAbsFirst_spec c.2.2 (cs.map fun c => c.2.2)
      exact ⟨r, by simpa using hr⟩
  | cons rep rest ih =>
    simp only [prefPick]
    rcases hl : (cands.filter fun c => c.1 = rep).map (fun c => c.2.2) with _ | ⟨v, vs⟩
    · rw [hl]
      simpa using ih
    · obtain ⟨r, hr, -, -⟩ := maxAbsFirst_spec v vs
      rw [hl]
      exact ⟨r, by simpa using hr⟩

lemma prefPick_first (cands : List Cand) (prefs : List String) (rep : String)
    (hfind : firstSurvivingReport prefs cands = some rep) :
    ∃ v, prefPick cands prefs = some v ∧ v ∈ repValsOf cands rep ∧
      ∀ w ∈ repValsOf cands rep, |w| ≤ |v| := by
  induction prefs with
  | nil => simp [firstSurvivingReport] at hfind
  | cons p rest ih =>
    by_cases hempty : ((cands.filter fun c => c.1 = p).isEmpty : Bool) = true
    · have hfe : (cands.filter fun c => c.1 = p) = [] := List.isEmpty_iff.mp hempty
      have hfind2 : firstSurvivingReport rest cands = some rep := by
        rw [firstSurvivingReport, List.find?_cons_of_neg] at hfind
        · exact hfind
        · simp [hempty]
      obtain ⟨v, hv, hmem, hmax⟩ := ih hfind2
      refine ⟨v, ?_, hmem, hmax⟩
      simp only [prefPick]
      rw [hfe]
      simpa using hv
    · have hrep : p = rep := by
        rw [firstSurvivingReport, List.find?_cons_of_pos] at hfind
        · simpa using hfind
        · simp [hempty]
      subst hrep
      rcases hl : (cands.filter fun c => c.1 = p).map (fun c => c.2.2) with _ | ⟨v, vs⟩
      · exfalso
        rw [List.isEmpty_iff] at hempty
        exact hempty (by simpa using hl)
      · obtain ⟨r, hr, hmem, hmax⟩ := maxAbsFirst_spec v vs
        refine ⟨r, ?_, ?_, ?_⟩
        · simp only [prefPick]
          rw [hl]
          simpa using hr
        · rw [repValsOf, hl]; exact hmem
        · rw [repValsOf, hl]; exact hmax

/-- C4.  pick_best returns absent exactly when no candidate survives the
plausibility filter; and whenever some preferred report id has a surviving
candidate, the result is the value of largest absolute magnitude among the
surviving candidates of the first such report id. -/
theorem C4_pick_best_selection (rows : List FactRow) (rule : MetricRule) :
    (pick_best rows rule = Option.none ↔ survivorsOf rows rule = []) ∧
    (∀ rep, firstSurvivingReport rule.report_preference (survivorsOf rows rule) = some rep →
      ∃ v, pick_best rows rule = some v ∧
        v ∈ repValsOf (survivorsOf rows rule) rep ∧
        ∀ w ∈ repValsOf (survivorsOf rows rule) rep, |w| ≤ |v|) := by
  have hpb : pick_best rows rule =
      if (candidatesOf rows rule).isEmpty then Option.none
      else if (survivorsOf rows rule).isEmpty then Option.none
      else prefPick (survivorsOf rows rule) rule.report_preference := rfl
  constructor
  · constructor
    · intro hnone
      by_cases h1 : ((candidatesOf rows rule).isEmpty : Bool) = true
      · rw [survivorsOf, List.isEmpty_iff.mp h1]
        rfl
      · rw [hpb, if_neg h1] at hnone
        by_cases h2 : ((survivorsOf rows rule).isEmpty : Bool) = true
        · exact List.isEmpty_iff.mp h2
        · rw [if_neg h2] at hnone
          obtain ⟨v, hv⟩ := prefPick_isSome _
            (fun h => h2 (List.isEmpty_iff.mpr h)) rule.report_preference
          rw [hv] at hnone
          exact absurd hnone (Option.some_ne_none v)
    · intro hsurv
      rw [hpb]
      by_cases h1 : ((candidatesOf rows rule).isEmpty : Bool) = true
      · rw [if_pos h1]
      · rw [if_neg h1, if_pos (List.isEmpty_iff.mpr hsurv)]
  · intro rep hfind
    obtain ⟨v, hv, hmem, hmax⟩ := prefPick_first _ _ _ hfind
    refine ⟨v, ?_, hmem, hmax⟩
    have hsne : ¬ ((survivorsOf rows rule).isEmpty : Bool) = true := by
      intro h
      have hnone : firstSurvivingReport rule.report_preference [] = Option.none :=
        List.find?_eq_none.mpr fun x _ => by simp
      rw [firstSurvivingReport, List.isEmpty_iff.mp h, ← firstSurvivingReport] at hfind
      rw [hnone] at hfind
      exact Option.noConfusion hfind
    have hcne : ¬ ((candidatesOf rows rule).isEmpty : Bool) = true := by
      intro h
      apply hsne
      rw [survivorsOf, List.isEmpty_iff.mp h]
      rfl
    rw [hpb, if_neg hcne, if_neg hsne]
    exact hv

/-- C4, witness: a concrete rule preferring report "1" over "4" and rows in
both reports; the theorem yields the maximal-magnitude value of report "1"
(-9), never report "4"'s 100. -/
theorem C4_pick_best_selection_witness :
    ∃ v, pick_best
        [⟨"1::ativo total", 5⟩, ⟨"1::ativo total", -9⟩, ⟨"4::ativo total", 100⟩]
        ⟨"ativo_total", [fun s => s = "ativo total"], ["1", "4"]⟩ = some v ∧
      v ∈ repValsOf (survivorsOf
        [⟨"1::ativo total", 5⟩, ⟨"1::ativo total", -9⟩, ⟨"4::ativo total", 100⟩]
        ⟨"ativo_total", [fun s => s = "ativo total"], ["1", "4"]⟩) "1" ∧
      ∀ w ∈ repValsOf (survivorsOf
        [⟨"1::ativo total", 5⟩, ⟨"1::ativo total", -9⟩, ⟨"4::ativo total", 100⟩]
        ⟨"ativo_total", [fun s => s = "ativo total"], ["1", "4"]⟩) "1", |w| ≤ |v| :=
  (C4_pick_best_selection
    [⟨"1::ativo total", 5⟩, ⟨"1::ativo total", -9⟩, ⟨"4::ativo total", 100⟩]
    ⟨"ativo_total", [fun s => s = "ativo total"], ["1", "4"]⟩).2 "1" (by decide)

lemma maxAbsFirst_mem (l : List ℚ) (v : ℚ) (h : maxAbsFirst l = some v) : v ∈ l := by
  cases l with
  | nil => exact Option.noConfusion h
  | cons x xs =>
    obtain ⟨r, hr, hmem, -⟩ := maxAbsFirst_spec x xs
    rw [hr] at h
    rw [← Option.some.inj h]
    exact hmem

lemma prefPick_mem (cands : List Cand) (prefs : List String) (v : ℚ)
    (h : prefPick cands prefs = some v) : v ∈ cands.map fun c => c.2.2 := by
  induction prefs with
  | nil => exact maxAbsFirst_mem _ _ h
  | cons rep rest ih =>
    simp only [prefPick] at h
    rcases hl : (cands.filter fun c => c.1 = rep).map (fun c => c.2.2) with _ | ⟨x, xs⟩
    · rw [hl] at h
      exact ih (by simpa using h)
    · rw [hl] at h
      have hv : v ∈ (cands.filter fun c => c.1 = rep).map fun c => c.2.2 := by
        rw [hl]
        exact maxAbsFirst_mem _ _ (by simpa using h)
      obtain ⟨c, hc, rfl⟩ := List.mem_map.mp hv
      exact List.mem_map.mpr ⟨c, (List.mem_filter.mp hc).1, rfl⟩

lemma pick_best_mem_survivors (rows : List FactRow) (rule : MetricRule) (v : ℚ)
    (h : pick_best rows rule = some v) :
    v ∈ (survivorsOf rows rule).map fun c => c.2.2 := by
  have hpb : pick_best rows rule =
      if (candidatesOf rows rule).isEmpty then Option.none
      else if (survivorsOf rows rule).isEmpty then Option.none
      else prefPick (survivorsOf rows rule) rule.report_preference := rfl
  rw [hpb] at h
  by_cases h1 : ((candidatesOf rows rule).isEmpty : Bool) = true
  · rw [if_pos h1] at h; exact Option.noConfusion h
  · rw [if_neg h1] at h
    by_cases h2 : ((survivorsOf rows rule).isEmpty : Bool) = true
    · rw [if_pos h2] at h; exact Option.noConfusion h
    · rw [if_neg h2] at h
      exact prefPick_mem _ _ _ h

/-- C7.  Every value selected by pick_best survived the plausibility filter,
so it lies inside the per-metric range: capital_ratio (basileia) in (0,100),
liquidity_ratio (liquidez) in (0,10), npl_ratio (inadimplencia) in [0,100).
In particular an out-of-range candidate (say capital_ratio 250) is never
selected, label match or not. -/
theorem C7_plausibility_ranges (rows : List FactRow) (rule : MetricRule) (v : ℚ)
    (h : pick_best rows rule = some v) :
    (rule.metric = "basileia" → 0 < v ∧ v < 100) ∧
    (rule.metric = "liquidez" → 0 < v ∧ v < 10) ∧
    (rule.metric = "inadimplencia" → 0 ≤ v ∧ v < 100) := by
  obtain ⟨c, hc, rfl⟩ := List.mem_map.mp (pick_best_mem_survivors rows rule v h)
  have hsane : sane rule.metric c.2.1 c.2.2 = true :=
    (List.mem_filter.mp hc).2
  refine ⟨?_, ?_, ?_⟩ <;> intro hm <;> rw [hm] at hsane <;>
    simpa [sane] using hsane

/-- C7, witness: with a basileia rule whose pattern matches both rows, the
out-of-range candidate 250 is discarded and the selection is the in-range
value 12 (which indeed lies in (0, 100)). -/
theorem C7_plausibility_ranges_witness :
    pick_best [⟨"1::indice de basileia", 250⟩, ⟨"1::indice de basileia", 12⟩]
      ⟨"basileia", [fun s => s = "indice de basileia"], ["1", "5"]⟩ = some 12 ∧
    ((0 : ℚ) < 12 ∧ (12 : ℚ) < 100) :=
  ⟨by decide,
    (C7_plausibility_ranges
      [⟨"1::indice de basileia", 250⟩, ⟨"1::indice de basileia", 12⟩]
      ⟨"basileia", [fun s => s = "indice de basileia"], ["1", "5"]⟩ 12 (by decide)).1 rfl⟩

/-! ### Per-bank normalization (normalize_ifdata.py, normalize) -/

/-- Lookup in a Python dict modelled as an association list where a later
binding for the same key overwrites an earlier one. -/
def pyDictGetLast {α : Type} (l : List (String × α)) (k : String) : Option α :=
  (l.reverse.find? fun p => p.1 = k).map fun p => p.2

/-- Metrics dict built by normalize: `metrics[rule.metric] =
pick_best(bank_rows, rule)` for each rule in order. -/
def metricsAList (rules : List MetricRule) (rows : List FactRow) :
    List (String × Option ℚ) :=
  rules.map fun ru => (ru.metric, pick_best rows ru)

/-- Python `metrics.get(k)`: None both when the key is missing and when the
stored value is None. -/
def mGet (l : List (String × Option ℚ)) (k : String) : Option ℚ :=
  (pyDictGetLast l k).bind id

/-- Basileia fraction fix-up in normalize: when the selected basileia value
lies in (0,1) it is rescaled to a percentage.  The dict assignment is
modelled by appending a later binding, which pyDictGetLast makes win. -/
def adjustBasileia (l : List (String × Option ℚ)) : List (String × Option ℚ) :=
  match mGet l "basileia" with
  | Option.none => l
  | some b => if 0 < b ∧ b < 1 then l ++ [("basileia", some (b * 100))] else l

/-- Metrics dict of one bank after the basileia fix-up, as read by the
derived-ratio code in normalize. -/
def bankMetricsDict (rules : List MetricRule) (rows : List FactRow) :
    List (String × Option ℚ) :=
  adjustBasileia (metricsAList rules rows)

/-- Output record appended to `out` by normalize for one bank. -/
structure BankOut where
  ref_date : String
  bank_id : String
  bank_name : String
  ativo_total : Option ℚ
  patrimonio_liquido : Option ℚ
  lucro_liquido : Option ℚ
  basileia : Option ℚ
  liquidez : Option ℚ
  inadimplencia : Option ℚ
  roa : Option ℚ
  alavancagem : Option ℚ
deriving DecidableEq

/-- Per-bank body of normalize: run every rule, fix up basileia, and derive
roa = lucro/ativo*100 (only when lucro is present and ativo is neither None
nor 0) and alavancagem = ativo/pl (only when ativo is present and pl is
neither None nor 0). -/
def normalize_bank (rd bid bname : String) (rules : List MetricRule)
    (rows : List FactRow) : BankOut :=
  let metrics := bankMetricsDict rules rows
  let ativo := mGet metrics "ativo_total"
  let lucro := mGet metrics "lucro_liquido"
  let pl := mGet metrics "patrimonio_liquido"
  let roa :=
    match lucro, ativo with
    | some l, some a => if a = 0 then Option.none else some (l / a * 100)
    | _, _ => Option.none
  let alav :=
    match ativo, pl with
    | some a, some p => if p = 0 then Option.none else some (a / p)
    | _, _ => Option.none
  ⟨rd, bid, bname, ativo, pl, lucro, mGet metrics "basileia",
    mGet metrics "liquidez", mGet metrics "inadimplencia", roa, alav⟩

/-- C8.  roa and alavancagem are derived only when both inputs are present
and the denominator is non-zero, and are absent otherwise, so the aggregator
never divides by zero; with total_assets = 1000000, net_income = 5000,
equity = 100000 the outputs are roa = 0.5 and leverage = 10, and with
equity = 0 the leverage is absent. -/
theorem C8_derived_ratios (rd bid bname : String) (rules : List MetricRule)
    (rows : List FactRow) :
    ((∀ l a, mGet (bankMetricsDict rules rows) "lucro_liquido" = some l →
        mGet (bankMetricsDict rules rows) "ativo_total" = some a → a ≠ 0 →
        (normalize_bank rd bid bname rules rows).roa = some (l / a * 100)) ∧
     (mGet (bankMetricsDict rules rows) "lucro_liquido" = Option.none ∨
        mGet (bankMetricsDict rules rows) "ativo_total" = Option.none ∨
        mGet (bankMetricsDict rules rows) "ativo_total" = some 0 →
        (normalize_bank rd bid bname rules rows).roa = Option.none) ∧
     (∀ a p, mGet (bankMetricsDict rules rows) "ativo_total" = some a →
        mGet (bankMetricsDict rules rows) "patrimonio_liquido" = some p → p ≠ 0 →
        (normalize_bank rd bid bname rules rows).alavancagem = some (a / p)) ∧
     (mGet (bankMetricsDict rules rows) "ativo_total" = Option.none ∨
        mGet (bankMetricsDict rules rows) "patrimonio_liquido" = Option.none ∨
        mGet (bankMetricsDict rules rows) "patrimonio_liquido" = some 0 →
        (normalize_bank rd bid bname rules rows).alavancagem = Option.none)) ∧
    ((5000 : ℚ) / 1000000 * 100 = 0.5 ∧ (1000000 : ℚ) / 100000 = 10) := by
  constructor
  · refine ⟨?_, ?_, ?_, ?_⟩
    · intro l a hl ha hz
      show (match mGet (bankMetricsDict rules rows) "lucro_liquido",
          mGet (bankMetricsDict rules rows) "ativo_total" with
        | some l, some a => if a = 0 then Option.none else some (l / a * 100)
        | _, _ => Option.none) = some (l / a * 100)
      rw [hl, ha]
      simp [hz]
    · intro h
      show (match mGet (bankMetricsDict rules rows) "lucro_liquido",
          mGet (bankMetricsDict rules rows) "ativo_total" with
        | some l, some a => if a = 0 then Option.none else some (l / a * 100)
        | _, _ => Option.none) = Option.none
      rcases h with h | h | h
      · rw [h]
      · rw [h]
        cases mGet (bankMetricsDict rules rows) "lucro_liquido" <;> rfl
      · rw [h]
        cases mGet (bankMetricsDict rules rows) "lucro_liquido" with
        | none => rfl
        | some l => simp
    · intro a p ha hp hz
      show (match mGet (bankMetricsDict rules rows) "ativo_total",
          mGet (bankMetricsDict rules rows) "patrimonio_liquido" with
        | some a, some p => if p = 0 then Option.none else some (a / p)
        | _, _ => Option.none) = some (a / p)
      rw [ha, hp]
      simp [hz]
    · intro h
      show (match mGet (bankMetricsDict rules rows) "ativo_total",
          mGet (bankMetricsDict rules rows) "patrimonio_liquido" with
        | some a, some p => if p = 0 then Option.none else some (a / p)
        | _, _ => Option.none) = Option.none
      rcases h with h | h | h
      · rw [h]
      · rw [h]
        cases mGet (bankMetricsDict rules rows) "ativo_total" <;> rfl
      · rw [h]
        cases mGet (bankMetricsDict rules rows) "ativo_total" with
        | none => rfl
        | some a => simp
  · constructor <;> norm_num

/-- C8, witness: a concrete rule set and fact rows with
total_assets = 1000000, net_income = 5000, equity = 100000 produce
roa = 5000/1000000*100 and leverage = 1000000/100000; with equity stored as
0 the leverage is absent. -/
theorem C8_derived_ratios_witness :
    (normalize_bank "2024-12-31" "b1" "Banco A"
      [⟨"ativo_total", [fun s => s = "ativo total"], ["1"]⟩,
       ⟨"lucro_liquido", [fun s => s = "lucro liquido"], ["1"]⟩,
       ⟨"patrimonio_liquido", [fun s => s = "patrimonio liquido"], ["1"]⟩]
      [⟨"1::ativo total", 1000000⟩, ⟨"1::lucro liquido", 5000⟩,
       ⟨"1::patrimonio liquido", 100000⟩]).roa = some ((5000 : ℚ) / 1000000 * 100) ∧
    (normalize_bank "2024-12-31" "b1" "Banco A"
      [⟨"ativo_total", [fun s => s = "ativo total"], ["1"]⟩,
       ⟨"lucro_liquido", [fun s => s = "lucro liquido"], ["1"]⟩,
       ⟨"patrimonio_liquido", [fun s => s = "patrimonio liquido"], ["1"]⟩]
      [⟨"1::ativo total", 1000000⟩, ⟨"1::lucro liquido", 5000⟩,
       ⟨"1::patrimonio liquido", 100000⟩]).alavancagem
        = some ((1000000 : ℚ) / 100000) ∧
    (normalize_bank "2024-12-31" "b2" "Banco B"
      [⟨"ativo_total", [fun s => s = "ativo total"], ["1"]⟩,
       ⟨"lucro_liquido", [fun s => s = "lucro liquido"], ["1"]⟩,
       ⟨"patrimonio_liquido", [fun s => s = "patrimonio liquido"], ["1"]⟩]
      [⟨"1::ativo total", 1000000⟩, ⟨"1::lucro liquido", 5000⟩,
       ⟨"1::patrimonio liquido", 0⟩]).alavancagem = Option.none :=
  ⟨(C8_derived_ratios "2024-12-31" "b1" "Banco A"
      [⟨"ativo_total", [fun s => s = "ativo total"], ["1"]⟩,
       ⟨"lucro_liquido", [fun s => s = "lucro liquido"], ["1"]⟩,
       ⟨"patrimonio_liquido", [fun s => s = "patrimonio liquido"], ["1"]⟩]
      [⟨"1::ativo total", 1000000⟩, ⟨"1::lucro liquido", 5000⟩,
       ⟨"1::patrimonio liquido", 100000⟩]).1.1 5000 1000000
      (by decide) (by decide) (by decide),
   (C8_derived_ratios "2024-12-31" "b1" "Banco A"
      [⟨"ativo_total", [fun s => s = "ativo total"], ["1"]⟩,
       ⟨"lucro_liquido", [fun s => s = "lucro liquido"], ["1"]⟩,
       ⟨"patrimonio_liquido", [fun s => s = "patrimonio liquido"], ["1"]⟩]
      [⟨"1::ativo total", 1000000⟩, ⟨"1::lucro liquido", 5000⟩,
       ⟨"1::patrimonio liquido", 100000⟩]).1.2.2.1 1000000 100000
      (by decide) (by decide) (by decide),
   (C8_derived_ratios "2024-12-31" "b2" "Banco B"
      [⟨"ativo_total", [fun s => s = "ativo total"], ["1"]⟩,
       ⟨"lucro_liquido", [fun s => s = "lucro liquido"], ["1"]⟩,
       ⟨"patrimonio_liquido", [fun s => s = "patrimonio liquido"], ["1"]⟩]
      [⟨"1::ativo total", 1000000⟩, ⟨"1::lucro liquido", 5000⟩,
       ⟨"1::patrimonio liquido", 0⟩]).1.2.2.2 (Or.inr (Or.inr (by decide)))⟩

/-! ### Sink upserts and idempotence (C6)

The three ON CONFLICT upserts of the pipeline (ifdata_indicators,
mart_bank_metrics, mart_bank_risk) are modelled as row stores: total maps
from the natural key to the stored non-key columns, written row by row in
batch order (each whole-batch INSERT executes inside one transaction, and a
conflicting key overwrites the updatable columns). -/

/-- Row upsert semantics shared by the three sinks: fold the batch over the
store, each row overwriting the value at its natural key. -/
def upsertFold {α κ ν : Type} [DecidableEq κ] (key : α → κ) (val : α → ν)
    (s : κ → Option ν) (l : List α) : κ → Option ν :=
  l.foldl (fun m a => fun k => if k = key a then some (val a) else m k) s

/-- Raw fact destined for ifdata_indicators (the dict built by
ingest_relatorio's row loop). -/
structure Fact where
  ref_date : String
  institution_id : String
  institution_name : String
  indicator : String
  value : PyFloat
deriving DecidableEq

/-- ifdata_indicators as a row store: key (ref_date, institution_id,
indicator), stored columns (institution_name, value). -/
def LongSink : Type := String × String × String → Option (String × PyFloat)

/-- upsert_batch_long from ingest_ifdata.py: INSERT ... ON CONFLICT
(ref_date, institution_id, indicator) DO UPDATE SET value, institution_name. -/
def upsert_batch_long (s : LongSink) (batch : List Fact) : LongSink :=
  upsertFold (fun f => (f.ref_date, f.institution_id, f.indicator))
    (fun f => (f.institution_name, f.value)) s batch

/-- mart_bank_metrics as a row store: key (ref_date, bank_id), conflict
fully overwrites the derived fields. -/
def MartSink : Type := String × String → Option BankOut

/-- Upsert of normalize's output batch into mart_bank_metrics (the
updated_at audit column is not modelled). -/
def upsertMartBatch (s : MartSink) (rows : List BankOut) : MartSink :=
  upsertFold (fun r => (r.ref_date, r.bank_id)) (fun r => r) s rows

/-- Row of mart_bank_risk produced by risk_score.run. -/
structure RiskRow where
  ref_date : String
  bank_id : String
  bank_name : String
  score : ℚ
  rating : String
  drivers : Drivers

/-- mart_bank_risk as a row store: key (ref_date, bank_id), conflict fully
overwrites score/rating/drivers (created_at is not modelled). -/
def RiskSink : Type := String × String → Option RiskRow

def upsertRiskBatch (s : RiskSink) (rows : List RiskRow) : RiskSink :=
  upsertFold (fun r => (r.ref_date, r.bank_id)) (fun r => r) s rows

lemma upsertFold_apply {α κ ν : Type} [DecidableEq κ] (key : α → κ) (val : α → ν)
    (l : List α) (s : κ → Option ν) (k : κ) :
    upsertFold key val s l k =
      match l.reverse.find? (fun a => key a = k) with
      | some a => some (val a)
      | Option.none => s k := by
  induction l generalizing s with
  | nil => rfl
  | cons a l ih =>
    show upsertFold key val (fun k => if k = key a then some (val a) else s k) l k = _
    rw [ih]
    rw [List.reverse_cons, List.find?_append]
    cases hf : l.reverse.find? (fun x => decide (key x = k)) with
    | some b => simp
    | none =>
      by_cases hk : key a = k
      · simp [List.find?, hk]
      · simp [List.find?, hk, Ne.symm hk]

lemma upsertFold_idem {α κ ν : Type} [DecidableEq κ] (key : α → κ) (val : α → ν)
    (s : κ → Option ν) (l : List α) :
    upsertFold key val (upsertFold key val s l) l = upsertFold key val s l := by
  funext k
  rw [upsertFold_apply, upsertFold_apply]
  cases l.reverse.find? (fun a => key a = k) <;> simp

/-- C6.  Applying the same batch to each sink twice yields the same stored
state as applying it once: raw facts are upserted by (period, entity,
raw_label) and canonical metrics / risk assessments by (period, entity), so
a re-run with identical inputs is idempotent. -/
theorem C6_upsert_idempotent :
    (∀ (s : LongSink) (batch : List Fact),
      upsert_batch_long (upsert_batch_long s batch) batch = upsert_batch_long s batch) ∧
    (∀ (s : MartSink) (rows : List BankOut),
      upsertMartBatch (upsertMartBatch s rows) rows = upsertMartBatch s rows) ∧
    (∀ (s : RiskSink) (rows : List RiskRow),
      upsertRiskBatch (upsertRiskBatch s rows) rows = upsertRiskBatch s rows) :=
  ⟨fun s batch => upsertFold_idem _ _ s batch,
   fun s rows => upsertFold_idem _ _ s rows,
   fun s rows => upsertFold_idem _ _ s rows⟩

/-! ### Resilient fetch (ingest_ifdata.py, odata_get)

The network is modelled as a map from attempt index to what that attempt's
HTTP GET does; sleeping and backoff timing are not modelled (the claims
about odata_get concern its retry/fail-fast classification and its terminal
error, not wall-clock behavior). -/

/-- Decimal rendering of a natural number (fuel-based so that the kernel can
evaluate it on closed inputs). -/
def digitChar (d : Nat) : Char := Char.ofNat (48 + d)

def natReprAux : Nat → Nat → List Char
  | 0, _ => []
  | fuel + 1, n => if n < 10 then [digitChar n] else natReprAux fuel (n / 10) ++ [digitChar (n % 10)]

def natRepr (n : Nat) : List Char := natReprAux (n + 1) n

/-- Outcome of one HTTP GET attempt: a transport timeout (ReadTimeout /
ConnectTimeout / RemoteProtocolError), a response with a status code, a body
and an optional parsed JSON payload (None when `.json()` would raise), or
any other exception. -/
inductive Outcome
  | timeout
  | response (status : Nat) (body : String) (json : Option String)
  | otherError (msg : String)

/-- Last error recorded by odata_get's exception handlers. -/
inductive FetchErr
  | timeoutErr
  | statusErr (code : Nat) (msg : String)
  | otherErr (msg : String)
deriving DecidableEq

/-- Result of odata_get: the parsed payload on success, or the terminal
RuntimeError carrying the last recorded cause after the loop ends. -/
inductive FetchResult
  | ok (payload : String)
  | exhausted (lastErr : Option FetchErr)
deriving DecidableEq

/-- _is_retryable_status from ingest_ifdata.py. -/
def _is_retryable_status (code : Nat) : Bool :=
  code = 408 || code = 429 || code = 500 || code = 502 || code = 503 || code = 504

/-- _resp_snippet from ingest_ifdata.py: cleaned body, first 250 chars. -/
def _resp_snippet (body : String) : String :=
  String.mk ((clean_text body).data.take 250)

/-- Message of the HTTPStatusError raised on a 400 response
(`f"400 Bad Request. Body(snippet)={snippet}"`). -/
def msg400 (body : String) : String :=
  String.mk ("400 Bad Request. Body(snippet)=".data ++ (_resp_snippet body).data)

/-- Message of the HTTPStatusError raised for a retryable status
(`f"{r.status_code} retryable"`). -/
def retryableMsg (code : Nat) : String :=
  String.mk (natRepr code ++ " retryable".data)

/-- Message of the HTTPStatusError raised by `r.raise_for_status()` (the
exact httpx phrasing is abbreviated; no claim inspects this text). -/
def raiseForStatusMsg (code : Nat) : String :=
  String.mk ("HTTP error ".data ++ natRepr code)

/-- Attempt loop of odata_get: remaining attempts, current attempt index and
the last error so far; returns the result together with the number of
attempts consumed.  Mirrors the `for attempt in range(1, tries + 1)` loop:
a 400 breaks out at once (its handler sees code == 400), every other caught
exception falls through to the backoff sleep and the next attempt, and the
loop's end raises the terminal RuntimeError from the last error. -/
def odataGo (outcomes : Nat → Outcome) : Nat → Nat → Option FetchErr → FetchResult × Nat
  | 0, i, le => (.exhausted le, i)
  | n + 1, i, _le =>
    match outcomes i with
    | .timeout => odataGo outcomes n (i + 1) (some .timeoutErr)
    | .otherError m => odataGo outcomes n (i + 1) (some (.otherErr m))
    | .response code body json =>
      if code = 400 then (.exhausted (some (.statusErr 400 (msg400 body))), i + 1)
      else if 400 ≤ code then
        if _is_retryable_status code then
          odataGo outcomes n (i + 1) (some (.statusErr code (retryableMsg code)))
        else
          odataGo outcomes n (i + 1) (some (.statusErr code (raiseForStatusMsg code)))
      else
        match json with
        | some p => (.ok p, i + 1)
        | Option.none => odataGo outcomes n (i + 1) (some (.otherErr "json decode error"))

/-- odata_get from ingest_ifdata.py over a modelled network. -/
def odata_get (tries : Nat) (outcomes : Nat → Outcome) : FetchResult × Nat :=
  odataGo outcomes tries 0 Option.none

/-- Error that an attempt records when it fails without terminating the
loop (derived from odata_get's handlers; none for a 400, which breaks, and
for a successful attempt). -/
def attemptRetryErr : Outcome → Option FetchErr
  | .timeout => some .timeoutErr
  | .otherError m => some (.otherErr m)
  | .response code _ json =>
    if code = 400 then Option.none
    else if 400 ≤ code then
      if _is_retryable_status code then some (.statusErr code (retryableMsg code))
      else some (.statusErr code (raiseForStatusMsg code))
    else
      match json with
      | some _ => Option.none
      | Option.none => some (.otherErr "json decode error")

lemma odataGo_succ (outcomes : Nat → Outcome) (n i : Nat) (le : Option FetchErr) :
    odataGo outcomes (n + 1) i le =
      match outcomes i with
      | .timeout => odataGo outcomes n (i + 1) (some .timeoutErr)
      | .otherError m => odataGo outcomes n (i + 1) (some (.otherErr m))
      | .response code body json =>
        if code = 400 then (.exhausted (some (.statusErr 400 (msg400 body))), i + 1)
        else if 400 ≤ code then
          if _is_retryable_status code then
            odataGo outcomes n (i + 1) (some (.statusErr code (retryableMsg code)))
          else
            odataGo outcomes n (i + 1) (some (.statusErr code (raiseForStatusMsg code)))
        else
          match json with
          | some p => (.ok p, i + 1)
          | Option.none => odataGo outcomes n (i + 1) (some (.otherErr "json decode error")) :=
  rfl

lemma odataGo_retry_step (outcomes : Nat → Outcome) (n i : Nat) (le : Option FetchErr)
    (e : FetchErr) (h : attemptRetryErr (outcomes i) = some e) :
    odataGo outcomes (n + 1) i le = odataGo outcomes n (i + 1) (some e) := by
  rw [odataGo_succ]
  split
  next heq =>
    rw [heq] at h
    injection h with h2
    subst h2
    rfl
  next m heq =>
    rw [heq] at h
    injection h with h2
    subst h2
    rfl
  next code body json heq =>
    rw [heq] at h
    simp only [attemptRetryErr] at h
    by_cases h400 : code = 400
    · rw [if_pos h400] at h
      exact Option.noConfusion h
    · rw [if_neg h400] at h ⊢
      by_cases hge : 400 ≤ code
      · rw [if_pos hge] at h ⊢
        by_cases hretry : (_is_retryable_status code : Bool) = true
        · rw [if_pos hretry] at h ⊢
          rw [Option.some.inj h]
        · rw [if_neg hretry] at h ⊢
          rw [Option.some.inj h]
      · rw [if_neg hge] at h ⊢
        cases json with
        | some p => exact Option.noConfusion h
        | none =>
          injection h with h2
          subst h2
          rfl

lemma odataGo_exhaust (outcomes : Nat → Outcome) (n : Nat) :
    ∀ i le, (∀ j, j < n + 1 → (attemptRetryErr (outcomes (i + j))).isSome) →
      odataGo outcomes (n + 1) i le
        = (.exhausted (attemptRetryErr (outcomes (i + n))), i + n + 1) := by
  induction n with
  | zero =>
    intro i le hall
    obtain ⟨e, he⟩ := Option.isSome_iff_exists.mp
      (by simpa using hall 0 (by decide))
    rw [odataGo_retry_step outcomes 0 i le e he]
    show (FetchResult.exhausted (some e), i + 1) = _
    simp only [Nat.add_zero]
    rw [he]
  | succ m ih =>
    intro i le hall
    obtain ⟨e, he⟩ := Option.isSome_iff_exists.mp
      (by simpa using hall 0 (Nat.succ_pos _))
    rw [odataGo_retry_step outcomes (m + 1) i le e he]
    rw [ih (i + 1) (some e) (fun j hj => by
      simpa [Nat.add_assoc, Nat.add_comm 1 j] using hall (j + 1) (by omega))]
    have h1 : i + 1 + m = i + (m + 1) := by omega
    rw [h1]

/-- C2, counterexample.  The claim states that a non-retryable 4xx status
other than 400 fails fast with no retry; but `r.raise_for_status()` raises
an HTTPStatusError that the generic handler catches (only code 400 breaks
the loop), so a 404 on the first attempt is followed by a second attempt --
here the call succeeds on attempt 2 instead of failing fast after attempt 1. -/
theorem C2_odata_get_404_retried_counterexample :
    odata_get 7 (fun i => if i = 0 then .response 404 "not found" Option.none
      else .response 200 "" (some "payload")) = (.ok "payload", 2) := by decide

/-- C2, amended.  Transport timeouts, HTTP 429/5xx -- and every other
non-400 error status, including non-retryable 4xx such as 404 -- are retried
up to the bounded attempt count; only HTTP 400 fails fast (no retry), with
the terminal error carrying the response-snippet message; and exhausting all
attempts yields the terminal error carrying the last attempt's cause. -/
theorem C2_odata_get_amended :
    (∀ (outcomes : Nat → Outcome) (tries : Nat) (body : String) (json : Option String),
      1 ≤ tries → outcomes 0 = .response 400 body json →
      odata_get tries outcomes
        = (.exhausted (some (.statusErr 400 (msg400 body))), 1)) ∧
    (∀ (outcomes : Nat → Outcome) (tries : Nat) (e : FetchErr),
      attemptRetryErr (outcomes 0) = some e →
      odata_get (tries + 1) outcomes = odataGo outcomes tries 1 (some e)) ∧
    (∀ (outcomes : Nat → Outcome) (tries : Nat),
      1 ≤ tries → (∀ j, j < tries → (attemptRetryErr (outcomes j)).isSome) →
      odata_get tries outcomes
        = (.exhausted (attemptRetryErr (outcomes (tries - 1))), tries)) := by
  refine ⟨?_, ?_, ?_⟩
  · intro outcomes tries body json h1 h0
    cases tries with
    | zero => exact absurd h1 (by decide)
    | succ n =>
      show odataGo outcomes (n + 1) 0 Option.none = _
      rw [odataGo_succ, h0]
      simp
  · intro outcomes tries e he
    exact odataGo_retry_step outcomes tries 0 Option.none e he
  · intro outcomes tries h1 hall
    cases tries with
    | zero => exact absurd h1 (by decide)
    | succ n =>
      have h := odataGo_exhaust outcomes n 0 Option.none (by simpa using hall)
      show odataGo outcomes (n + 1) 0 Option.none = _
      rw [h]
      simp

/-- C2, witness: a constant-400 network fails fast after one attempt with
the snippet-carrying cause; a 404 then 429 then timeout network exhausts
3 attempts with the timeout as last cause. -/
theorem C2_odata_get_amended_witness :
    odata_get 7 (fun _ => .response 400 "ruim" Option.none)
      = (.exhausted (some (.statusErr 400 (msg400 "ruim"))), 1) ∧
    odata_get 3 (fun i => if i = 0 then .response 404 "x" Option.none
        else if i = 1 then .response 429 "y" Option.none else .timeout)
      = (.exhausted (attemptRetryErr .timeout), 3) :=
  ⟨C2_odata_get_amended.1 (fun _ => .response 400 "ruim" Option.none) 7 "ruim"
      Option.none (by decide) rfl,
   by
    have h := C2_odata_get_amended.2.2
      (fun i => if i = 0 then .response 404 "x" Option.none
        else if i = 1 then .response 429 "y" Option.none else .timeout) 3
      (by decide) (by decide)
    simpa using h⟩

/-! ### Checkpoint store (ingest_ifdata.py: load_state / get_checkpoint) -/

/-- JSON value as produced by `json.loads`. -/
inductive JVal
  | null
  | jbool (b : Bool)
  | jnum (q : ℚ)
  | jstr (s : String)
  | jarr (elems : List JVal)
  | jobj (fields : List (String × JVal))

/-- State of the checkpoint file on disk as seen by load_state: absent,
present but with `json.loads` raising, or parsed into a JSON value. -/
inductive StateFile
  | missing
  | unreadable
  | parsed (j : JVal)

/-- load_state from ingest_ifdata.py: a missing file and a file whose read
or parse raises both yield the empty dict. -/
def load_state : StateFile → JVal
  | .missing => .jobj []
  | .unreadable => .jobj []
  | .parsed j => j

/-- Checkpoint dataclass from ingest_ifdata.py. -/
structure Checkpoint where
  anomes : Int
  tipo : Int
  rel : String
  top : Int
  skip : Int
  updated_at : String
deriving DecidableEq

/-- Decimal rendering of an integer (used by the f-string of state_key). -/
def intRepr (n : Int) : List Char :=
  if n < 0 then '-' :: natRepr n.natAbs else natRepr n.toNat

/-- state_key from ingest_ifdata.py: `f"{anomes}:{tipo}:{rel}"`. -/
def state_key (anomes tipo : Int) (rel : String) : String :=
  String.mk (intRepr anomes ++ [':'] ++ intRepr tipo ++ [':'] ++ rel.data)

/-- Python `int(s)` on a string: optional sign and decimal digits after
stripping whitespace (digit-group underscores are not modelled). -/
def pyIntOfStr (s : String) : Option Int :=
  let l := trimChars s.data
  let (neg, r) := splitSign l
  if r.isEmpty || !r.all isDigitChar then Option.none
  else some (if neg then -(natOfDigits r : Int) else (natOfDigits r : Int))

/-- Python `int(x)` on a JSON value: bools coerce, numbers truncate toward
zero, strings parse, everything else raises (None here). -/
def jint : JVal → Option Int
  | .jbool b => some (if b then 1 else 0)
  | .jnum q => some (q.num.tdiv q.den)
  | .jstr s => pyIntOfStr s
  | _ => Option.none

/-- Python `str(x)` on a JSON value -- total, it never raises.  The
rendering of non-string values is simplified (no claim compares these
texts); only the string identity case matters to the pipeline. -/
def jstrOf : JVal → String
  | .jstr s => s
  | .jbool b => if b then "True" else "False"
  | .null => "None"
  | .jnum q => String.mk (intRepr q.num)
  | .jarr _ => "<list>"
  | .jobj _ => "<dict>"

/-- Body of get_checkpoint's try block: build the Checkpoint from the entry
dict field by field; any missing key or failing int() conversion is caught
and yields None. -/
def checkpointOfEntry (d : List (String × JVal)) : Option Checkpoint :=
  match pyDictGetLast d "anomes" with
  | Option.none => Option.none
  | some ja =>
    match jint ja with
    | Option.none => Option.none
    | some a =>
      match pyDictGetLast d "tipo" with
      | Option.none => Option.none
      | some jt =>
        match jint jt with
        | Option.none => Option.none
        | some t =>
          match pyDictGetLast d "rel" with
          | Option.none => Option.none
          | some jr =>
            match (match pyDictGetLast d "top" with
              | Option.none => some (0 : Int)
              | some jv => jint jv) with
            | Option.none => Option.none
            | some tp =>
              match (match pyDictGetLast d "skip" with
                | Option.none => some (0 : Int)
                | some jv => jint jv) with
              | Option.none => Option.none
              | some sk =>
                some ⟨a, t, jstrOf jr, tp, sk,
                  (match pyDictGetLast d "updated_at" with
                    | Option.none => ""
                    | some jv => jstrOf jv)⟩

/-- get_checkpoint from ingest_ifdata.py.  The `state.get(key)` call sits
outside the try block, so a state that is not a dict at all would raise an
uncaught AttributeError (the Except.error case) -- that shape is outside the
claim's enumerated corruption cases and is never produced by load_state's
own corruption handling, which returns the empty dict. -/
def get_checkpoint (state : JVal) (anomes tipo : Int) (rel : String) :
    Except Unit (Option Checkpoint) :=
  match state with
  | .jobj fields =>
    match pyDictGetLast fields (state_key anomes tipo rel) with
    | some (.jobj d) => .ok (checkpointOfEntry d)
    | some _ => .ok Option.none
    | Option.none => .ok Option.none
  | _ => .error ()

/-- Resume cursor computed by ingest_relatorio:
`start_skip = int(cp.skip) if cp else 0`. -/
def resumeStart (cp : Option Checkpoint) : Int :=
  match cp with
  | some c => c.skip
  | Option.none => 0

/-- Resume page size computed by ingest_relatorio:
`page_top = int(cp.top) if (cp and cp.top > 0) else int(top_initial)`. -/
def resumeTop (cp : Option Checkpoint) (top_initial : Int) : Int :=
  match cp with
  | some c => if 0 < c.top then c.top else top_initial
  | Option.none => top_initial

/-- C9.  A corrupted or unreadable checkpoint is treated as absence and
never raises: a missing or unparseable state file loads as the empty dict
(lookup absent), a non-dict entry under the report key yields absence, an
entry whose fields fail integer conversion yields absence, and an absent
checkpoint makes ingestion start the report from cursor 0. -/
theorem C9_checkpoint_corruption_is_absence :
    (∀ a t r, get_checkpoint (load_state .missing) a t r = .ok Option.none) ∧
    (∀ a t r, get_checkpoint (load_state .unreadable) a t r = .ok Option.none) ∧
    (∀ a t r fields v, pyDictGetLast fields (state_key a t r) = some v →
      (∀ d, v ≠ .jobj d) →
      get_checkpoint (.jobj fields) a t r = .ok Option.none) ∧
    (∀ a t r fields d ja, pyDictGetLast fields (state_key a t r) = some (.jobj d) →
      pyDictGetLast d "anomes" = some ja → jint ja = Option.none →
      get_checkpoint (.jobj fields) a t r = .ok Option.none) ∧
    resumeStart Option.none = 0 := by
  refine ⟨fun a t r => rfl, fun a t r => rfl, ?_, ?_, rfl⟩
  · intro a t r fields v hfind hv
    show (match pyDictGetLast fields (state_key a t r) with
      | some (.jobj d) => Except.ok (checkpointOfEntry d)
      | some _ => .ok Option.none
      | Option.none => .ok Option.none) = .ok Option.none
    rw [hfind]
    cases v with
    | jobj d => exact absurd rfl (hv d)
    | null => rfl
    | jbool b => rfl
    | jnum q => rfl
    | jstr s => rfl
    | jarr l => rfl
  · intro a t r fields d ja hfind hja hnone
    show (match pyDictGetLast fields (state_key a t r) with
      | some (.jobj d) => Except.ok (checkpointOfEntry d)
      | some _ => .ok Option.none
      | Option.none => .ok Option.none) = .ok Option.none
    rw [hfind]
    show Except.ok (checkpointOfEntry d) = .ok Option.none
    have hc : checkpointOfEntry d = Option.none := by
      show (match pyDictGetLast d "anomes" with
        | Option.none => Option.none
        | some ja =>
          match jint ja with
          | Option.none => Option.none
          | some a => _) = Option.none
      rw [hja]
      simp [hnone]
    rw [hc]

/-- C9, witness: a state whose entry under the report key is a bare string,
and one whose entry has a non-numeric anomes field, both load as absence. -/
theorem C9_checkpoint_corruption_is_absence_witness :
    get_checkpoint (.jobj [(state_key 202412 1 "1", .jstr "boom")]) 202412 1 "1"
        = .ok Option.none ∧
    get_checkpoint
        (.jobj [(state_key 202412 1 "1", .jobj [("anomes", .jstr "abc")])]) 202412 1 "1"
        = .ok Option.none :=
  ⟨C9_checkpoint_corruption_is_absence.2.2.1 202412 1 "1"
      [(state_key 202412 1 "1", .jstr "boom")] (.jstr "boom") rfl
      (fun _d h => JVal.noConfusion h),
   C9_checkpoint_corruption_is_absence.2.2.2.1 202412 1 "1"
      [(state_key 202412 1 "1", .jobj [("anomes", .jstr "abc")])]
      [("anomes", .jstr "abc")] (.jstr "abc") rfl rfl rfl⟩

/-! ### Ingestion orchestrator (ingest_ifdata.py, ingest_relatorio)

The upstream server is modelled as a fixed row list served by offset/limit
slices (identical responses on every run, which is the premise of the
claim's resume-equivalence); odata_get is assumed to succeed (its failure
modes are C2's concern), and timestamps written into checkpoints are
modelled as "".  The run is modelled as the ordered trace of its durable
effects -- batch commits to the sink and checkpoint-file writes -- so that a
crash after any prefix of the trace can be replayed. -/

/-- Row of the IfDataValores payload, with exactly the fields
ingest_relatorio reads (absent JSON keys and nulls both appear as None to
`row.get`). -/
structure ValRow where
  codInst : Option String
  numeroRelatorio : Option String
  descricaoColuna : Option String
  nomeColuna : Option String
  conta : Option String
  saldo : PyVal

/-- Python `x or ""` on an optional string (None and "" are both falsy). -/
def pyOrEmpty (o : Option String) : String :=
  match o with
  | some s => if s = "" then "" else s
  | Option.none => ""

/-- Python or-chain `a or b or ... or ""` over possibly-falsy strings. -/
def orChain : List (Option String) → String
  | [] => ""
  | o :: rest =>
    match o with
    | some s => if s = "" then orChain rest else s
    | Option.none => orChain rest

/-- Row body of ingest_relatorio's inner loop: skip rows without an entity
id, with an empty cleaned label, or with an unparseable value; otherwise
build the fact dict destined for ifdata_indicators. -/
def rowToFact (cadastro_map : List (String × String)) (rel : String)
    (indicator_max_len name_max_len : Int) (ref_date : String)
    (row : ValRow) : Option Fact :=
  let cod_inst := pyStrip (pyOrEmpty row.codInst)
  if cod_inst = "" then Option.none
  else
    let inst_name0 :=
      match pyDictGetLast cadastro_map cod_inst with
      | some n => if n = "" then "" else n
      | Option.none => ""
    let inst_name := safe_trunc inst_name0 name_max_len
    let num_rel := pyStrip (match row.numeroRelatorio with
      | some s => if s = "" then rel else s
      | Option.none => rel)
    let nome_col := clean_indicator_name
      (orChain [row.descricaoColuna, row.nomeColuna, row.conta])
    if nome_col = "" then Option.none
    else
      let indicator := safe_trunc
        (String.mk (num_rel.data ++ "::".data ++ nome_col.data)) indicator_max_len
      match to_float row.saldo with
      | Option.none => Option.none
      | some v => some ⟨ref_date, cod_inst, inst_name, indicator, v⟩

/-- Page iterator of iter_ifdata_valores_pages in the no-timeout case: ask
for page_top rows at skip, stop on an empty page, yield, stop after a short
page, else advance skip by the rows received.  Fuel-based recursion (the
fuel is an upper bound on the number of pages) so closed runs evaluate. -/
def pagesFromFuel : Nat → List ValRow → Nat → Nat → List (Nat × List ValRow)
  | 0, _, _, _ => []
  | fuel + 1, allRows, page_top, skip =>
    let rows := (allRows.drop skip).take page_top
    if rows.isEmpty then []
    else if rows.length < page_top then [(skip, rows)]
    else (skip, rows) :: pagesFromFuel fuel allRows page_top (skip + rows.length)

def pagesFrom (allRows : List ValRow) (page_top skip : Nat) : List (Nat × List ValRow) :=
  pagesFromFuel (allRows.length + 1) allRows page_top skip

/-- Durable effect of the run: a batch commit to the sink (one transaction)
or an atomic checkpoint-file write. -/
inductive IngEvent
  | commit (batch : List Fact)
  | save (cp : Checkpoint)
deriving DecidableEq

/-- Loop state of ingest_relatorio: pending batch, upsert counters and the
trace of durable effects so far. -/
structure IngSt where
  batch : List Fact
  total : Nat
  lastCommit : Nat
  events : List IngEvent

/-- Arguments of one ingest_relatorio call. -/
structure IngCtx where
  anomes : Int
  tipo : Int
  rel : String
  ref_date : String
  cadastro_map : List (String × String)
  resume : Bool
  top_initial : Int
  commit_every : Nat
  indicator_max_len : Int
  name_max_len : Int

/-- One inner-loop step of ingest_relatorio: on reaching commit_every, the
batch is committed and then a checkpoint with cursor `skip + len(rows)` --
the end of the WHOLE current page -- is persisted. -/
def processRow (ctx : IngCtx) (page_top : Int) (pageSkip pageLen : Nat)
    (st : IngSt) (row : ValRow) : IngSt :=
  match rowToFact ctx.cadastro_map ctx.rel ctx.indicator_max_len
      ctx.name_max_len ctx.ref_date row with
  | Option.none => st
  | some f =>
    let batch := st.batch ++ [f]
    if ctx.commit_every ≤ batch.length then
      { batch := [],
        total := st.total + batch.length,
        lastCommit := st.total + batch.length,
        events := st.events ++
          [.commit batch,
           .save ⟨ctx.anomes, ctx.tipo, ctx.rel, page_top,
             ((pageSkip + pageLen : Nat) : Int), ""⟩] }
    else
      { st with batch := batch }

/-- One page of ingest_relatorio: the row loop followed by the end-of-page
safety checkpoint (written only when upserts happened since the last
checkpoint). -/
def processPage (ctx : IngCtx) (page_top : Int) (st : IngSt)
    (page : Nat × List ValRow) : IngSt :=
  let st1 := page.2.foldl (processRow ctx page_top page.1 page.2.length) st
  if ctx.resume ∧ st1.total ≠ st1.lastCommit then
    { st1 with
      lastCommit := st1.total,
      events := st1.events ++
        [.save ⟨ctx.anomes, ctx.tipo, ctx.rel, page_top,
          ((page.1 + page.2.length : Nat) : Int), ""⟩] }
  else st1

/-- ingest_relatorio from ingest_ifdata.py, as the trace of its durable
effects: resume from the loaded checkpoint (None unless resume is set),
drain the pages, flush the final partial batch, and (when resuming) write
the terminal-sentinel checkpoint. -/
def ingest_relatorio (ctx : IngCtx) (allRows : List ValRow)
    (cp0 : Option Checkpoint) : List IngEvent :=
  let cp := if ctx.resume then cp0 else Option.none
  let start_skip := (resumeStart cp).toNat
  let page_top := resumeTop cp ctx.top_initial
  let pages := pagesFrom allRows (max 200 page_top).toNat start_skip
  let st := pages.foldl (processPage ctx page_top) ⟨[], 0, 0, []⟩
  let st2 :=
    if st.batch.isEmpty then st
    else
      { st with
        batch := [],
        total := st.total + st.batch.length,
        events := st.events ++ [.commit st.batch] }
  if ctx.resume then
    st2.events ++ [.save ⟨ctx.anomes, ctx.tipo, ctx.rel, page_top, 999999999, ""⟩]
  else st2.events

/-- Durable sink contents after a prefix of the trace. -/
def sinkAfter (events : List IngEvent) : LongSink :=
  events.foldl (fun s e => match e with
    | .commit b => upsert_batch_long s b
    | .save _ => s) (fun _ => Option.none)

/-- Persisted checkpoint after a prefix of the trace (the last atomic
checkpoint-file write, if any). -/
def ckptAfter (events : List IngEvent) : Option Checkpoint :=
  events.foldl (fun c e => match e with
    | .save cp => some cp
    | .commit _ => c) Option.none

/-- All facts committed during a prefix of the trace. -/
def committedFacts (events : List IngEvent) : List Fact :=
  events.foldl (fun acc e => match e with
    | .commit b => acc ++ b
    | .save _ => acc) []

/-- Concrete run for C1: one report, three valid rows, commit_every = 2. -/
def c1Ctx : IngCtx :=
  ⟨202412, 1, "1", "2024-12-31", [], true, 2000, 2, 220, 200⟩

def c1Row (cod lbl : String) (v : Int) : ValRow :=
  ⟨some cod, some "1", some lbl, Option.none, Option.none, .int v⟩

def c1Rows : List ValRow :=
  [c1Row "0001" "col a" 10, c1Row "0002" "col b" 11, c1Row "0003" "col c" 12]

/-- Complete first run (no prior checkpoint). -/
def c1Run : List IngEvent := ingest_relatorio c1Ctx c1Rows Option.none

/-- Crash point: right after the checkpoint written upon the first batch
commit (the first two durable events). -/
def c1CrashEvents : List IngEvent := c1Run.take 2

/-- Resumed run, loading the checkpoint persisted before the crash. -/
def c1ResumeRun : List IngEvent :=
  ingest_relatorio c1Ctx c1Rows (ckptAfter c1CrashEvents)

/-- Natural key of the third row's fact. -/
def c1Key3 : String × String × String := ("2024-12-31", "0003", "1::col c")

/-- C1.  The orchestrator persists a checkpoint whose cursor is the end of
the whole current page (`skip + len(rows)`) immediately after a mid-page
batch commit, so the cursor covers rows that are not yet durable:
with three valid rows in one page and commit_every = 2, the checkpoint
written after committing rows 1-2 already carries cursor 3 while row 3's
fact is uncommitted.  Crashing at that point and resuming starts at cursor
3, never processes row 3, and the stored output misses its fact -- the
resumed run does not match a from-scratch run, refuting both the
never-ahead-of-durable-storage invariant and exactly-once resume. -/
theorem C1_checkpoint_ahead_of_storage :
    c1Run =
      [.commit [⟨"2024-12-31", "0001", "", "1::col a", .finite 10⟩,
                ⟨"2024-12-31", "0002", "", "1::col b", .finite 11⟩],
       .save ⟨202412, 1, "1", 2000, 3, ""⟩,
       .commit [⟨"2024-12-31", "0003", "", "1::col c", .finite 12⟩],
       .save ⟨202412, 1, "1", 2000, 999999999, ""⟩] ∧
    ckptAfter c1CrashEvents = some ⟨202412, 1, "1", 2000, 3, ""⟩ ∧
    committedFacts c1CrashEvents =
      [⟨"2024-12-31", "0001", "", "1::col a", .finite 10⟩,
       ⟨"2024-12-31", "0002", "", "1::col b", .finite 11⟩] ∧
    c1ResumeRun = [.save ⟨202412, 1, "1", 2000, 999999999, ""⟩] ∧
    sinkAfter c1Run c1Key3 = some ("", .finite 12) ∧
    sinkAfter (c1CrashEvents ++ c1ResumeRun) c1Key3 = Option.none := by
  refine ⟨by decide, by decide, by decide, by decide, by decide, by decide⟩

end RiskBank
